import Mathlib

/-!
Verification of the roder parser-combinator engine.

This file shallowly embeds the engine of `src/parse.rs`, the token types of
`src/token.rs` and the illustrative grammar of `src/grammar.rs`.  A parser is
modelled as a function `Context T → Nat → Option (Parse T)`; the `Option`
layer records the partiality of the Rust code: `none` marks an execution that
aborts (an out-of-bounds index in the fallback path of `Repeatable::parse`, or
an `unwrap` of an empty list in `Not`'s span helper).  `Repeatable::parse`
contains an unbounded `loop`; its embedding takes an explicit fuel argument
and returns `none` when the fuel is exhausted, so any result of the form
`some p` is a result the Rust loop reaches in finitely many iterations.
-/

namespace Roder

/-- Source span, from `src/token.rs`: line, start column, end column. -/
structure Span where
  ln : Nat
  cs : Nat
  ce : Nat
deriving DecidableEq, Repr

/-- `Default for Span` in `src/token.rs` yields `(1, 1, 1)`. -/
def Span.default : Span := ⟨1, 1, 1⟩

/-- A typed lexical unit over a generic token-type `T`, from `src/token.rs`. -/
structure Token (T : Type) where
  ty : T
  span : Span

/-- Read-only view over the token sequence, from `src/parse.rs`. -/
structure Context (T : Type) where
  tokens : List (Token T)

/-- `Context::get`: positional lookup. -/
def Context.get {T : Type} (ctx : Context T) (index : Nat) : Option (Token T) :=
  ctx.tokens.get? index

/-- `Context::span_last`: the span of the last token, or the default span when
the sequence is empty (`tokens.len() - 1` is taken with truncating
subtraction, so on an empty sequence the lookup misses and the default span
is produced). -/
def Context.span_last {T : Type} (ctx : Context T) : Span :=
  match ctx.get (ctx.tokens.length - 1) with
  | some t => t.span
  | none => Span.default

/-- `ParseError` from `src/parse.rs`: failed rule label, span, message. -/
structure ParseError where
  expected : String
  span : Span
  message : String
deriving DecidableEq, Repr

/-- `ParseError::from`: the default "Syntax error" constructor. -/
def ParseError.fromSpan (expected : String) (span : Span) : ParseError :=
  ⟨expected, span, "Syntax error"⟩

/-- Tree-shaped payload `ParseData<T>` from `src/parse.rs`. -/
inductive ParseData (T : Type) where
  | Nested (l : List (ParseData T))
  | TokenList (l : List (Token T))
  | Token (t : Token T)

/-- Tri-state outcome `ParseResult<T>` from `src/parse.rs`. -/
inductive ParseResult (T : Type) where
  | Ok (d : ParseData T)
  | Err (e : ParseError)
  | None

/-- Whether a `ParseResult` is the `Ok` variant. -/
def ParseResult.isOk {T : Type} : ParseResult T → Bool
  | .Ok _ => true
  | _ => false

/-- The full outcome of one combinator invocation, `Parse<'t, T>`. -/
structure Parse (T : Type) where
  type_parsed : String
  data : ParseResult T
  start_offset : Nat
  end_offset : Nat

/-- `Parse::size`: the number of token positions consumed. -/
def Parse.size {T : Type} (p : Parse T) : Nat :=
  p.end_offset - p.start_offset

/-- The `Parser<T>` capability: `parse(&self, ctx, offset) -> Parse<T>`, with
`none` standing for an aborting execution. -/
abbrev ParserFn (T : Type) : Type :=
  Context T → Nat → Option (Parse T)

/-- `Context::get_required`: the token at `index`, or the `ParseResult` to
propagate when it is absent (`None` when optional, otherwise an
end-of-input `Err` anchored at the last span). -/
def Context.get_required {T : Type} (ctx : Context T) (pty : String) (index : Nat)
    (optional : Bool) : Except (ParseResult T) (Token T) :=
  match ctx.get index with
  | some t => .ok t
  | none =>
    if optional then .error .None
    else .error (.Err ⟨pty, ctx.span_last, "Unexpected end of input"⟩)

/-- `OfType::parse` from `src/parse.rs` (lines 145-165): exact type match.
Success and mismatch both report `start_offset = end_offset = offset`. -/
def OfType.parse {T : Type} [DecidableEq T] (pty : String) (optional : Bool) (ty : T) :
    ParserFn T := fun ctx offset =>
  match ctx.get_required pty offset optional with
  | .error e => some ⟨pty, e, offset, offset⟩
  | .ok token =>
    if ty = token.ty then
      some ⟨pty, .Ok (.Token token), offset, offset⟩
    else
      some ⟨pty, .Err (ParseError.fromSpan pty token.span), offset, offset⟩

/-- `Predicate::parse` from `src/parse.rs` (lines 188-211): boolean test on
the token type.  Success reports `end_offset = offset`; mismatch reports
`end_offset = offset + 1`. -/
def Predicate.parse {T : Type} (pty : String) (optional : Bool) (predicate : T → Bool) :
    ParserFn T := fun ctx offset =>
  match ctx.get_required pty offset optional with
  | .error e => some ⟨pty, e, offset, offset⟩
  | .ok token =>
    if predicate token.ty then
      some ⟨pty, .Ok (.Token token), offset, offset⟩
    else
      some ⟨pty, .Err (ParseError.fromSpan pty token.span), offset, offset + 1⟩

/-- Loop body of `Sequence::parse` (lines 234-262): walk the children left to
right, advancing the cursor by each child's `size()` on `Ok`, aborting the
sequence on `Err` (downgraded to `None` when optional), skipping `None`
children without moving the cursor. -/
def Sequence.go {T : Type} (pty : String) (optional : Bool) (ctx : Context T)
    (offset : Nat) :
    List (ParserFn T) → Nat → List (ParseData T) → Option (Parse T)
  | [], offs, expr => some ⟨pty, .Ok (.Nested expr), offset, offs⟩
  | item :: rest, offs, expr =>
    match item ctx offs with
    | none => none
    | some parse =>
      match parse.data with
      | .Ok d => Sequence.go pty optional ctx offset rest (offs + parse.size) (expr ++ [d])
      | .Err e =>
        if optional then some ⟨pty, .None, offset, offs⟩
        else some ⟨pty, .Err e, offset, offs⟩
      | .None => Sequence.go pty optional ctx offset rest offs expr

/-- `Sequence::parse` from `src/parse.rs` (lines 233-263). -/
def Sequence.parse {T : Type} (pty : String) (optional : Bool)
    (inner : List (ParserFn T)) : ParserFn T := fun ctx offset =>
  Sequence.go pty optional ctx offset inner offset []

/-- The cursor advance `Repeatable::parse` applies per successful iteration:
the number of logical elements the data represents (lines 297-301). -/
def Repeatable.itemCount {T : Type} : ParseData T → Nat
  | .Nested l => l.length
  | .TokenList l => l.length
  | .Token _ => 1

/-- The `loop` of `Repeatable::parse` (lines 292-312), with explicit fuel:
apply the child at the advancing cursor, collecting `Ok` data, stopping at
the first `Err` (remembered) or `None` (forgotten).  Returns the collected
data, the remembered error and the final cursor. -/
def Repeatable.loop {T : Type} (inner : ParserFn T) (ctx : Context T) :
    Nat → Nat → List (ParseData T) →
      Option (List (ParseData T) × Option ParseError × Nat)
  | 0, _, _ => none
  | fuel + 1, offs, expr =>
    match inner ctx offs with
    | none => none
    | some parse =>
      match parse.data with
      | .Ok d => Repeatable.loop inner ctx fuel (offs + Repeatable.itemCount d) (expr ++ [d])
      | .Err e => some (expr, some e, offs)
      | .None => some (expr, none, offs)

/-- `Repeatable::parse` from `src/parse.rs` (lines 285-330).  When the loop
collected nothing, a non-optional repetition with no remembered error indexes
`ctx.tokens[offs]` without a bounds check; the out-of-bounds abort is `none`. -/
def Repeatable.parse {T : Type} (fuel : Nat) (pty : String) (optional : Bool)
    (inner : ParserFn T) : ParserFn T := fun ctx offset =>
  match Repeatable.loop inner ctx fuel offset [] with
  | none => none
  | some (expr, err, offs) =>
    if expr.isEmpty then
      if optional then some ⟨pty, .None, offset, offs⟩
      else
        match err with
        | some e => some ⟨pty, .Err e, offset, offs⟩
        | none =>
          match ctx.tokens.get? offs with
          | some t => some ⟨pty, .Err (ParseError.fromSpan pty t.span), offset, offs⟩
          | none => none
    else some ⟨pty, .Ok (.Nested expr), offset, offs⟩

/-- The recursive helper of `Not::parse` (lines 350-356): the span of the
leftmost token in the data.  The Rust code takes `first().unwrap()`, so an
empty `Nested` or `TokenList` aborts: `none`. -/
def get_data_span {T : Type} : ParseData T → Option Span
  | .Token t => some t.span
  | .TokenList l =>
    match l with
    | [] => none
    | t :: _ => some t.span
  | .Nested l =>
    match l with
    | [] => none
    | d :: _ => get_data_span d

/-- `Not::parse` from `src/parse.rs` (lines 348-377): negative lookahead.
The returned `Parse` carries the child's `start_offset` and `end_offset`. -/
def Not.parse {T : Type} (pty : String) (optional : Bool) (inner : ParserFn T) :
    ParserFn T := fun ctx offset =>
  match inner ctx offset with
  | none => none
  | some parse =>
    match parse.data with
    | .Ok data =>
      if optional then some ⟨pty, .None, parse.start_offset, parse.end_offset⟩
      else
        match get_data_span data with
        | none => none
        | some span =>
          some ⟨pty, .Err (ParseError.fromSpan pty span), parse.start_offset, parse.end_offset⟩
    | .Err _ => some ⟨pty, .None, parse.start_offset, parse.end_offset⟩
    | .None => some ⟨pty, .None, parse.start_offset, parse.end_offset⟩

/-- Loop body of `Choice::parse` (lines 400-415): try each alternative at the
same offset, returning the first `Ok` result verbatim; when none matches,
a summary `Err` labeled with the choice's own rule name, anchored at the
last token's span. -/
def Choice.go {T : Type} (pty : String) (ctx : Context T) (offset : Nat) :
    List (ParserFn T) → Option (Parse T)
  | [] => some ⟨pty, .Err (ParseError.fromSpan pty ctx.span_last), offset, offset⟩
  | choice :: rest =>
    match choice ctx offset with
    | none => none
    | some parse =>
      match parse.data with
      | .Ok _ => some parse
      | _ => Choice.go pty ctx offset rest

/-- `Choice::parse` from `src/parse.rs` (lines 399-416).  The `optional`
field is stored by the constructor but never consulted. -/
def Choice.parse {T : Type} (pty : String) (optional : Bool)
    (inner : List (ParserFn T)) : ParserFn T := fun ctx offset =>
  Choice.go pty ctx offset inner

/-- The token-type enum of `src/grammar.rs`. -/
inductive TokenType where
  | Semicolon
  | Dollar
  | Or
  | Caret
  | LBracket
  | RBracket
  | Equals
  | LParen
  | RParen
  | Eoi
  | Id (s : String)
  | Str (s : String)
deriving DecidableEq, Repr

/-- `matches!(t, TokenType::Id(_))` from `src/grammar.rs`. -/
def TokenType.isId : TokenType → Bool
  | .Id _ => true
  | _ => false

/-- `matches!(t, TokenType::Str(_))` from `src/grammar.rs`. -/
def TokenType.isStr : TokenType → Bool
  | .Str _ => true
  | _ => false

/-- `create_grammar_token_parser` from `src/grammar.rs` (lines 19-51): a
`Choice` of a lone `Eoi` or of an optional repetition of `Id = Str` items
followed by `Eoi`.  `fuel` bounds the embedded `Repeatable` loop. -/
def createGrammarTokenParser (fuel : Nat) : ParserFn TokenType :=
  let item := Sequence.parse "item" false
    [Predicate.parse "id" false TokenType.isId,
     OfType.parse "=" false TokenType.Equals,
     Predicate.parse "value" false TokenType.isStr]
  Choice.parse "document" false
    [OfType.parse "_" false TokenType.Eoi,
     Sequence.parse "items" false
       [Repeatable.parse fuel "fields" true item,
        OfType.parse "_" false TokenType.Eoi]]

/-- The sum of the cursor advances of a list of collected `Repeatable`
iteration results. -/
def Repeatable.sumCounts {T : Type} (ds : List (ParseData T)) : Nat :=
  (ds.map Repeatable.itemCount).sum

/-- `Repeatable.TraceOk inner ctx offs ds` states that, starting at `offs`,
the child returns `Ok` on each element of `ds` in turn, each iteration
advancing the cursor by that element's `itemCount`. -/
def Repeatable.TraceOk {T : Type} (inner : ParserFn T) (ctx : Context T) :
    Nat → List (ParseData T) → Prop
  | _, [] => True
  | offs, d :: rest =>
    (∃ q, inner ctx offs = some q ∧ q.data = ParseResult.Ok d) ∧
      Repeatable.TraceOk inner ctx (offs + Repeatable.itemCount d) rest

/-! ## Theorems about the claims -/

/-- When the child's first answer at `offs` is `Err` or `None`, the
`Repeatable` loop stops at once with an empty collection. -/
theorem Repeatable.loop_stop {T : Type} (inner : ParserFn T) (ctx : Context T)
    (fuel offs : Nat) (expr : List (ParseData T)) (p0 : Parse T)
    (hfuel : 1 ≤ fuel) (h0 : inner ctx offs = some p0) :
    (∀ e, p0.data = .Err e →
      Repeatable.loop inner ctx fuel offs expr = some (expr, some e, offs))
    ∧ (p0.data = .None →
      Repeatable.loop inner ctx fuel offs expr = some (expr, none, offs)) := by
  obtain ⟨f, rfl⟩ : ∃ f, fuel = f + 1 := ⟨fuel - 1, by omega⟩
  constructor
  · intro e he
    simp only [Repeatable.loop, h0, he]
  · intro he
    simp only [Repeatable.loop, h0, he]

/-- When the child returns `Ok` along the trace `ds` and then `Err e`, the
`Repeatable` loop collects exactly `ds` (after the accumulator), remembers
`e`, and stops with the cursor advanced by the trace's total item count. -/
theorem Repeatable.loop_trace {T : Type} (inner : ParserFn T) (ctx : Context T)
    (ds : List (ParseData T)) (q : Parse T) (e : ParseError) (hqd : q.data = .Err e) :
    ∀ (offs : Nat) (expr : List (ParseData T)) (fuel : Nat),
      Repeatable.TraceOk inner ctx offs ds → ds.length < fuel →
      inner ctx (offs + Repeatable.sumCounts ds) = some q →
      Repeatable.loop inner ctx fuel offs expr
        = some (expr ++ ds, some e, offs + Repeatable.sumCounts ds) := by
  induction ds with
  | nil =>
    intro offs expr fuel htr hlen hq
    obtain ⟨f, rfl⟩ : ∃ f, fuel = f + 1 := ⟨fuel - 1, by omega⟩
    simp only [Repeatable.sumCounts, List.map_nil, List.sum_nil, Nat.add_zero] at hq ⊢
    simp only [Repeatable.loop, hq, hqd, List.append_nil]
  | cons d rest ih =>
    intro offs expr fuel htr hlen hq
    simp only [Repeatable.TraceOk] at htr
    obtain ⟨⟨q0, hq0, hq0d⟩, htr2⟩ := htr
    obtain ⟨f, rfl⟩ : ∃ f, fuel = f + 1 := ⟨fuel - 1, by omega⟩
    have hsum : offs + Repeatable.sumCounts (d :: rest)
        = (offs + Repeatable.itemCount d) + Repeatable.sumCounts rest := by
      simp only [Repeatable.sumCounts, List.map_cons, List.sum_cons]
      omega
    rw [hsum] at hq
    simp only [Repeatable.loop, hq0, hq0d]
    rw [ih (offs + Repeatable.itemCount d) (expr ++ [d]) f htr2 (by
      simp only [List.length_cons] at hlen; omega) hq]
    rw [hsum, List.append_assoc]
    rfl

/-- Claim C1.  Parsing the token sequence `[Id "a", Equals, Str "x", Eoi]`
from offset 0 with the illustrative document grammar does NOT return `Ok`
with one `Nested` item of the three tokens: it returns an `Err` labeled
`document` anchored at the `Eoi` span `(1, 9, 9)`.  Successful leaf matches
report zero consumed width, so the item `Sequence` never advances past the
`Id` token and every alternative of the document `Choice` fails. -/
theorem c1_end_to_end_code_result :
    createGrammarTokenParser 100
        ⟨[⟨.Id "a", ⟨1, 1, 1⟩⟩, ⟨.Equals, ⟨1, 3, 3⟩⟩, ⟨.Str "x", ⟨1, 5, 7⟩⟩,
          ⟨.Eoi, ⟨1, 9, 9⟩⟩]⟩ 0
      = some ⟨"document", .Err ⟨"document", ⟨1, 9, 9⟩, "Syntax error"⟩, 0, 0⟩ := rfl

/-- Claim C2.  `OfType.parse` on a token whose type equals the target returns
`Ok (Token ...)` but with `end_offset = start_offset`, so its size is 0, not
the 1 position the claim states: the success branch of `OfType::parse`
returns `Parse::new(.., offset, offset)`. -/
theorem c2_oftype_success_width :
    OfType.parse "x" false TokenType.Eoi ⟨[⟨.Eoi, ⟨1, 1, 1⟩⟩]⟩ 0
        = some ⟨"x", .Ok (.Token ⟨.Eoi, ⟨1, 1, 1⟩⟩), 0, 0⟩
      ∧ Parse.size (⟨"x", .Ok (.Token ⟨.Eoi, ⟨1, 1, 1⟩⟩), 0, 0⟩ : Parse TokenType) = 0 :=
  ⟨rfl, rfl⟩

/-- Claim C3, counterexample.  `Not.parse` over a `Predicate` child that
mismatches the single input token returns a `Parse` with `start_offset = 0`
and `end_offset = 1`: the range is not zero-width, refuting the claim that
`end_offset` always equals `start_offset`. -/
theorem c3_not_width_counterexample :
    Not.parse "n" true (Predicate.parse "p" false (fun _ => false))
        ⟨[⟨TokenType.Eoi, ⟨1, 1, 1⟩⟩]⟩ 0
      = some ⟨"n", .None, 0, 1⟩ := rfl

/-- Claim C3, amended.  Whenever the child returns a `Parse` and `Not.parse`
itself returns a `Parse`, the returned range is exactly the child's range:
`Not` forwards the child's `start_offset` and `end_offset` verbatim, so it is
zero-width exactly when the child reports zero width. -/
theorem c3_not_forwards_child_offsets {T : Type} (pty : String) (optional : Bool)
    (inner : ParserFn T) (ctx : Context T) (offset : Nat) (q p : Parse T)
    (h1 : inner ctx offset = some q)
    (h2 : Not.parse pty optional inner ctx offset = some p) :
    p.start_offset = q.start_offset ∧ p.end_offset = q.end_offset := by
  simp only [Not.parse, h1] at h2
  cases hd : q.data with
  | Ok d =>
    rw [hd] at h2
    cases optional with
    | false =>
      simp only [Bool.false_eq_true, if_false] at h2
      cases hs : get_data_span d with
      | none => rw [hs] at h2; exact absurd h2 (by simp)
      | some sp =>
        rw [hs] at h2
        injection h2 with h
        subst h
        exact ⟨rfl, rfl⟩
    | true =>
      simp only [if_true] at h2
      injection h2 with h
      subst h
      exact ⟨rfl, rfl⟩
  | Err e =>
    rw [hd] at h2
    injection h2 with h
    subst h
    exact ⟨rfl, rfl⟩
  | None =>
    rw [hd] at h2
    injection h2 with h
    subst h
    exact ⟨rfl, rfl⟩

/-- Witness for the amended claim C3 at a concrete input: the child reports
the range 0..1 and `Not` reports the same range. -/
theorem c3_not_forwards_child_offsets_witness :
    (⟨"n", .None, 0, 1⟩ : Parse TokenType).start_offset
        = (⟨"p", .Err ⟨"p", ⟨1, 1, 1⟩, "Syntax error"⟩, 0, 1⟩ : Parse TokenType).start_offset
      ∧ (⟨"n", .None, 0, 1⟩ : Parse TokenType).end_offset
        = (⟨"p", .Err ⟨"p", ⟨1, 1, 1⟩, "Syntax error"⟩, 0, 1⟩ : Parse TokenType).end_offset :=
  c3_not_forwards_child_offsets "n" false (Predicate.parse "p" false (fun _ => false))
    ⟨[⟨TokenType.Eoi, ⟨1, 1, 1⟩⟩]⟩ 0 _ _ rfl rfl

/-- Claim C6.  Parsing `[Id "a", Equals, Eoi]` (missing value) from offset 0
with the illustrative document grammar fails, and the span of the returned
error is `(1, 5, 5)`, the span of the `Eoi` token (index 2): the `Choice`
summary error is anchored at the span of the last input token, which is the
`Eoi`. -/
theorem c6_missing_value_error_span :
    createGrammarTokenParser 100
        ⟨[⟨.Id "a", ⟨1, 1, 1⟩⟩, ⟨.Equals, ⟨1, 3, 3⟩⟩, ⟨.Eoi, ⟨1, 5, 5⟩⟩]⟩ 0
        = some ⟨"document", .Err ⟨"document", ⟨1, 5, 5⟩, "Syntax error"⟩, 0, 0⟩
      ∧ ([⟨.Id "a", ⟨1, 1, 1⟩⟩, ⟨.Equals, ⟨1, 3, 3⟩⟩,
          ⟨.Eoi, ⟨1, 5, 5⟩⟩] : List (Token TokenType)).get? 2
        = some ⟨.Eoi, ⟨1, 5, 5⟩⟩ :=
  ⟨rfl, rfl⟩

/-- Claim C7.  Two `Choice` combinators differing only in their `optional`
flag return identical results on every input: `Choice::parse` never consults
the flag. -/
theorem c7_choice_optional_unused {T : Type} (pty : String) (b1 b2 : Bool)
    (inner : List (ParserFn T)) (ctx : Context T) (offset : Nat) :
    Choice.parse pty b1 inner ctx offset = Choice.parse pty b2 inner ctx offset := rfl

/-- Witness for claim C7 at a concrete input. -/
theorem c7_choice_optional_unused_witness :
    Choice.parse "c" true ([] : List (ParserFn TokenType)) ⟨[]⟩ 0
      = Choice.parse "c" false ([] : List (ParserFn TokenType)) ⟨[]⟩ 0 :=
  c7_choice_optional_unused "c" true false [] ⟨[]⟩ 0

/-- Claim C8.  A `Not` whose inner matcher hits end of input returns `None`
there, so a non-optional `Repeatable` over it at offset 0 of the empty token
sequence reaches the fallback error path with no token at the current offset:
the unchecked index `ctx.tokens[offs]` is out of bounds and the execution
aborts (`none`) instead of producing a `Parse`. -/
theorem c8_repeatable_fallback_not_total :
    (Not.parse "n" false (OfType.parse "t" false TokenType.Eoi)) ⟨[]⟩ 0
        = some ⟨"n", .None, 0, 0⟩
      ∧ Repeatable.parse 5 "r" false
          (Not.parse "n" false (OfType.parse "t" false TokenType.Eoi)) ⟨[]⟩ 0
        = none :=
  ⟨rfl, rfl⟩

/-- Claim C9.  A `Sequence` with no children succeeds with the empty
`Nested` payload, `get_data_span` has no span to return on it, and the
error-span lookup of a non-optional `Not.parse` over that child aborts
(`none`) instead of returning a span. -/
theorem c9_not_empty_nested_not_total :
    Sequence.parse "s" false ([] : List (ParserFn TokenType)) ⟨[⟨.Eoi, ⟨1, 1, 1⟩⟩]⟩ 0
        = some ⟨"s", .Ok (.Nested []), 0, 0⟩
      ∧ get_data_span (ParseData.Nested ([] : List (ParseData TokenType))) = none
      ∧ Not.parse "x" false (Sequence.parse "s" false ([] : List (ParserFn TokenType)))
          ⟨[⟨.Eoi, ⟨1, 1, 1⟩⟩]⟩ 0
        = none :=
  ⟨rfl, rfl, rfl⟩

/-- Claim C4, counterexample.  The claim states that a non-optional
`Repeatable` whose child never returns `Ok` returns `Err`; but with a child
that returns `None` at the end of the input (a non-optional `Not` over an
`OfType`) and the empty token sequence, `Repeatable.parse` aborts on the
unchecked fallback index instead of returning any `Parse` at all. -/
theorem c4_repeatable_counterexample :
    (Not.parse "m" false (OfType.parse "u" false TokenType.Eoi)) ⟨[]⟩ 0
        = some ⟨"m", .None, 0, 0⟩
      ∧ Repeatable.parse 3 "q" false
          (Not.parse "m" false (OfType.parse "u" false TokenType.Eoi)) ⟨[]⟩ 0
        = none :=
  ⟨rfl, rfl⟩

/-- Claim C4, amended.  For a child that returns a `Parse` at the starting
offset: with zero successful iterations, `optional = true` yields `None`
with zero consumption; `optional = false` yields the child's trailing `Err`
when there is one, and otherwise (child returned `None`) yields the fallback
`Err` provided a token exists at the current offset — without such a token
the unchecked index aborts.  With a trace of `k > 0` successes followed by an
`Err`, the result is `Ok` with exactly the `k` collected items and
consumption equal to the sum of their item counts, the trailing error being
discarded. -/
theorem c4_repeatable_behavior :
    (∀ (T : Type) (fuel : Nat) (pty : String) (inner : ParserFn T) (ctx : Context T)
        (offset : Nat) (p0 : Parse T),
        1 ≤ fuel → inner ctx offset = some p0 → p0.data.isOk = false →
        Repeatable.parse fuel pty true inner ctx offset
          = some ⟨pty, .None, offset, offset⟩)
    ∧ (∀ (T : Type) (fuel : Nat) (pty : String) (inner : ParserFn T) (ctx : Context T)
        (offset : Nat) (p0 : Parse T) (e : ParseError),
        1 ≤ fuel → inner ctx offset = some p0 → p0.data = .Err e →
        Repeatable.parse fuel pty false inner ctx offset
          = some ⟨pty, .Err e, offset, offset⟩)
    ∧ (∀ (T : Type) (fuel : Nat) (pty : String) (inner : ParserFn T) (ctx : Context T)
        (offset : Nat) (p0 : Parse T) (t : Token T),
        1 ≤ fuel → inner ctx offset = some p0 → p0.data = .None →
        ctx.tokens.get? offset = some t →
        Repeatable.parse fuel pty false inner ctx offset
          = some ⟨pty, .Err (ParseError.fromSpan pty t.span), offset, offset⟩)
    ∧ (∀ (T : Type) (fuel : Nat) (pty : String) (optional : Bool) (inner : ParserFn T)
        (ctx : Context T) (offset : Nat) (ds : List (ParseData T)) (q : Parse T)
        (e : ParseError),
        Repeatable.TraceOk inner ctx offset ds → ds ≠ [] → ds.length < fuel →
        inner ctx (offset + Repeatable.sumCounts ds) = some q → q.data = .Err e →
        Repeatable.parse fuel pty optional inner ctx offset
          = some ⟨pty, .Ok (.Nested ds), offset, offset + Repeatable.sumCounts ds⟩) := by
  refine ⟨?_, ?_, ?_, ?_⟩
  · intro T fuel pty inner ctx offset p0 hfuel h0 hok
    have hstop := Repeatable.loop_stop inner ctx fuel offset [] p0 hfuel h0
    cases hd : p0.data with
    | Ok d => rw [hd] at hok; simp [ParseResult.isOk] at hok
    | Err e =>
      simp only [Repeatable.parse, hstop.1 e hd, List.isEmpty_nil, if_true]
    | None =>
      simp only [Repeatable.parse, hstop.2 hd, List.isEmpty_nil, if_true]
  · intro T fuel pty inner ctx offset p0 e hfuel h0 hd
    have hstop := Repeatable.loop_stop inner ctx fuel offset [] p0 hfuel h0
    simp only [Repeatable.parse, hstop.1 e hd, List.isEmpty_nil, if_true,
      Bool.false_eq_true, if_false]
  · intro T fuel pty inner ctx offset p0 t hfuel h0 hd ht
    have hstop := Repeatable.loop_stop inner ctx fuel offset [] p0 hfuel h0
    simp only [Repeatable.parse, hstop.2 hd, List.isEmpty_nil, if_true,
      Bool.false_eq_true, if_false, ht]
  · intro T fuel pty optional inner ctx offset ds q e htr hne hlen hq hqd
    have hloop := Repeatable.loop_trace inner ctx ds q e hqd offset [] fuel htr hlen hq
    simp only [Repeatable.parse, hloop, List.nil_append]
    cases ds with
    | nil => exact absurd rfl hne
    | cons d rest => simp only [List.isEmpty_cons, Bool.false_eq_true, if_false]

/-- Witness for the amended claim C4, one concrete instance per conjunct:
a child failing at once under an optional and under a non-optional
repetition, a child returning `None` with a token at the offset, and a child
succeeding twice before failing. -/
theorem c4_repeatable_behavior_witness :
    Repeatable.parse 3 "r" true (OfType.parse "t" false TokenType.Eoi)
        ⟨[⟨.Id "a", ⟨1, 1, 1⟩⟩]⟩ 0
      = some ⟨"r", .None, 0, 0⟩
    ∧ Repeatable.parse 3 "r" false (OfType.parse "t" false TokenType.Eoi)
        ⟨[⟨.Id "a", ⟨1, 1, 1⟩⟩]⟩ 0
      = some ⟨"r", .Err ⟨"t", ⟨1, 1, 1⟩, "Syntax error"⟩, 0, 0⟩
    ∧ Repeatable.parse 3 "r" false
        (Not.parse "n" false (OfType.parse "t" false TokenType.Eoi))
        ⟨[⟨.Id "a", ⟨1, 1, 1⟩⟩]⟩ 0
      = some ⟨"r", .Err ⟨"r", ⟨1, 1, 1⟩, "Syntax error"⟩, 0, 0⟩
    ∧ Repeatable.parse 5 "r" false (OfType.parse "t" false TokenType.Eoi)
        ⟨[⟨.Eoi, ⟨1, 1, 1⟩⟩, ⟨.Eoi, ⟨1, 2, 2⟩⟩, ⟨.Id "a", ⟨1, 3, 3⟩⟩]⟩ 0
      = some ⟨"r", .Ok (.Nested [.Token ⟨.Eoi, ⟨1, 1, 1⟩⟩, .Token ⟨.Eoi, ⟨1, 2, 2⟩⟩]),
          0, 2⟩ := by
  refine ⟨?_, ?_, ?_, ?_⟩
  · exact c4_repeatable_behavior.1 TokenType 3 "r" (OfType.parse "t" false TokenType.Eoi)
      ⟨[⟨.Id "a", ⟨1, 1, 1⟩⟩]⟩ 0 ⟨"t", .Err ⟨"t", ⟨1, 1, 1⟩, "Syntax error"⟩, 0, 0⟩
      (by omega) rfl rfl
  · exact c4_repeatable_behavior.2.1 TokenType 3 "r" (OfType.parse "t" false TokenType.Eoi)
      ⟨[⟨.Id "a", ⟨1, 1, 1⟩⟩]⟩ 0 ⟨"t", .Err ⟨"t", ⟨1, 1, 1⟩, "Syntax error"⟩, 0, 0⟩
      ⟨"t", ⟨1, 1, 1⟩, "Syntax error"⟩ (by omega) rfl rfl
  · exact c4_repeatable_behavior.2.2.1 TokenType 3 "r"
      (Not.parse "n" false (OfType.parse "t" false TokenType.Eoi))
      ⟨[⟨.Id "a", ⟨1, 1, 1⟩⟩]⟩ 0 ⟨"n", .None, 0, 0⟩ ⟨.Id "a", ⟨1, 1, 1⟩⟩
      (by omega) rfl rfl rfl
  · have h := c4_repeatable_behavior.2.2.2 TokenType 5 "r" false
      (OfType.parse "t" false TokenType.Eoi)
      ⟨[⟨.Eoi, ⟨1, 1, 1⟩⟩, ⟨.Eoi, ⟨1, 2, 2⟩⟩, ⟨.Id "a", ⟨1, 3, 3⟩⟩]⟩ 0
      [.Token ⟨.Eoi, ⟨1, 1, 1⟩⟩, .Token ⟨.Eoi, ⟨1, 2, 2⟩⟩]
      ⟨"t", .Err ⟨"t", ⟨1, 3, 3⟩, "Syntax error"⟩, 2, 2⟩
      ⟨"t", ⟨1, 3, 3⟩, "Syntax error"⟩
      (by
        simp only [Repeatable.TraceOk, Repeatable.itemCount]
        exact ⟨⟨_, rfl, rfl⟩, ⟨_, rfl, rfl⟩, trivial⟩)
      (by simp) (by simp) rfl rfl
    simpa [Repeatable.sumCounts, Repeatable.itemCount] using h

/-- Alternatives whose outcome is not `Ok` are skipped by the `Choice`
loop without affecting the final result. -/
theorem Choice.go_skip {T : Type} (pty : String) (ctx : Context T) (offset : Nat) :
    ∀ pre : List (ParserFn T),
      (∀ c ∈ pre, ∃ q, c ctx offset = some q ∧ q.data.isOk = false) →
      ∀ rest, Choice.go pty ctx offset (pre ++ rest) = Choice.go pty ctx offset rest
  | [], _, _ => rfl
  | c :: pre, h, rest => by
    obtain ⟨q, hq, hd⟩ := h c (List.mem_cons_self c pre)
    simp only [List.cons_append, Choice.go, hq]
    cases hqd : q.data with
    | Ok d => rw [hqd] at hd; simp [ParseResult.isOk] at hd
    | Err e =>
      exact Choice.go_skip pty ctx offset pre
        (fun x hx => h x (List.mem_cons_of_mem c hx)) rest
    | None =>
      exact Choice.go_skip pty ctx offset pre
        (fun x hx => h x (List.mem_cons_of_mem c hx)) rest

/-- Claim C5.  When every alternative before `c` returns a non-`Ok`
`Parse` and `c` returns an `Ok` `Parse` `p`, `Choice.parse` returns `p`
verbatim (with the alternative's own label, data and offsets); and when
every alternative returns a non-`Ok` `Parse`, `Choice.parse` returns an
`Err` labeled with the choice's own rule name, anchored at the span of the
last input token, with zero consumption. -/
theorem c5_choice_first_ok :
    (∀ (T : Type) (pty : String) (optional : Bool) (pre post : List (ParserFn T))
        (c : ParserFn T) (ctx : Context T) (offset : Nat) (p : Parse T),
        (∀ x ∈ pre, ∃ q, x ctx offset = some q ∧ q.data.isOk = false) →
        c ctx offset = some p → p.data.isOk = true →
        Choice.parse pty optional (pre ++ c :: post) ctx offset = some p)
    ∧ (∀ (T : Type) (pty : String) (optional : Bool) (inner : List (ParserFn T))
        (ctx : Context T) (offset : Nat),
        (∀ x ∈ inner, ∃ q, x ctx offset = some q ∧ q.data.isOk = false) →
        Choice.parse pty optional inner ctx offset
          = some ⟨pty, .Err ⟨pty, ctx.span_last, "Syntax error"⟩, offset, offset⟩) := by
  constructor
  · intro T pty optional pre post c ctx offset p hpre hc hok
    show Choice.go pty ctx offset (pre ++ c :: post) = some p
    rw [Choice.go_skip pty ctx offset pre hpre (c :: post)]
    simp only [Choice.go, hc]
    cases hd : p.data with
    | Ok d => rfl
    | Err e => rw [hd] at hok; simp [ParseResult.isOk] at hok
    | None => rw [hd] at hok; simp [ParseResult.isOk] at hok
  · intro T pty optional inner ctx offset h
    show Choice.go pty ctx offset inner
      = some ⟨pty, .Err ⟨pty, ctx.span_last, "Syntax error"⟩, offset, offset⟩
    have happ : inner ++ ([] : List (ParserFn T)) = inner := List.append_nil inner
    rw [← happ, Choice.go_skip pty ctx offset inner h []]
    rfl

/-- Witness for claim C5: a failing alternative followed by a succeeding
one returns the second alternative's result unmodified, and a single
failing alternative yields the summary error anchored at the last span. -/
theorem c5_choice_first_ok_witness :
    Choice.parse "ch" false
        [OfType.parse "a" false (TokenType.Id "q"), OfType.parse "b" false TokenType.Eoi]
        ⟨[⟨.Eoi, ⟨1, 1, 1⟩⟩]⟩ 0
      = some ⟨"b", .Ok (.Token ⟨.Eoi, ⟨1, 1, 1⟩⟩), 0, 0⟩
    ∧ Choice.parse "ch" false [OfType.parse "a" false (TokenType.Id "q")]
        ⟨[⟨.Eoi, ⟨1, 1, 1⟩⟩]⟩ 0
      = some ⟨"ch",
          .Err ⟨"ch",
            Context.span_last (⟨[⟨TokenType.Eoi, ⟨1, 1, 1⟩⟩]⟩ : Context TokenType),
            "Syntax error"⟩,
          0, 0⟩ := by
  constructor
  · exact c5_choice_first_ok.1 TokenType "ch" false
      [OfType.parse "a" false (TokenType.Id "q")] []
      (OfType.parse "b" false TokenType.Eoi) ⟨[⟨.Eoi, ⟨1, 1, 1⟩⟩]⟩ 0
      ⟨"b", .Ok (.Token ⟨.Eoi, ⟨1, 1, 1⟩⟩), 0, 0⟩
      (by
        intro x hx
        rw [List.mem_singleton] at hx
        subst hx
        exact ⟨⟨"a", .Err ⟨"a", ⟨1, 1, 1⟩, "Syntax error"⟩, 0, 0⟩, rfl, rfl⟩)
      rfl rfl
  · exact c5_choice_first_ok.2 TokenType "ch" false
      [OfType.parse "a" false (TokenType.Id "q")] ⟨[⟨.Eoi, ⟨1, 1, 1⟩⟩]⟩ 0
      (by
        intro x hx
        rw [List.mem_singleton] at hx
        subst hx
        exact ⟨⟨"a", .Err ⟨"a", ⟨1, 1, 1⟩, "Syntax error"⟩, 0, 0⟩, rfl, rfl⟩)

/-- When every child of a `Sequence` suffix reports `None` at the current
cursor, the sequence loop finishes with its accumulator unchanged and the
cursor where it stood. -/
theorem Sequence.go_all_none {T : Type} (pty : String) (optional : Bool)
    (ctx : Context T) (offset offs : Nat) (expr : List (ParseData T)) :
    ∀ inner : List (ParserFn T),
      (∀ c ∈ inner, ∃ p, c ctx offs = some p ∧ p.data = ParseResult.None) →
      Sequence.go pty optional ctx offset inner offs expr
        = some ⟨pty, .Ok (.Nested expr), offset, offs⟩
  | [], _ => rfl
  | c :: rest, h => by
    obtain ⟨p, hp, hd⟩ := h c (List.mem_cons_self c rest)
    simp only [Sequence.go, hp, hd]
    exact Sequence.go_all_none pty optional ctx offset offs expr rest
      (fun x hx => h x (List.mem_cons_of_mem c hx))

/-- Claim C10.  When every child of a `Sequence` reports `None` at the
starting offset (in particular when the child list is empty),
`Sequence.parse` returns `Ok (Nested [])` — a success with an empty payload
and `end_offset` equal to the input offset — rather than `None` or `Err`. -/
theorem c10_sequence_all_none {T : Type} (pty : String) (optional : Bool)
    (inner : List (ParserFn T)) (ctx : Context T) (offset : Nat)
    (h : ∀ c ∈ inner, ∃ p, c ctx offset = some p ∧ p.data = ParseResult.None) :
    Sequence.parse pty optional inner ctx offset
      = some ⟨pty, .Ok (.Nested []), offset, offset⟩ :=
  Sequence.go_all_none pty optional ctx offset offset [] inner h

/-- Witness for claim C10: a sequence of one optional `OfType` child over
the empty token sequence; the child reports `None` and the sequence
succeeds with the empty payload. -/
theorem c10_sequence_all_none_witness :
    Sequence.parse "s" false [OfType.parse "x" true TokenType.Eoi] ⟨[]⟩ 0
      = some ⟨"s", .Ok (.Nested []), 0, 0⟩ :=
  c10_sequence_all_none "s" false [OfType.parse "x" true TokenType.Eoi] ⟨[]⟩ 0
    (by
      intro c hc
      rw [List.mem_singleton] at hc
      subst hc
      exact ⟨⟨"x", .None, 0, 0⟩, rfl, rfl⟩)

end Roder
